import Mathlib

/-!
Verification development for the voice-clone job pipeline.

Shallow embedding of the repository's core subsystems:

* `app/models.py` — the persisted data model (`JobStatus`, `InputType`,
  `Speaker`, `SpeakerSegment`, `JobInfo`) and its JSON serialization
  (pydantic `model_dump_json` / `model_validate_json`);
* `app/services/job_manager.py` — the job store (in-memory cache with
  write-through persistence to per-job `job.json` documents);
* `app/services/pipeline_orchestrator.py` — the workflow state updates
  (status / progress / error sequences of each workflow);
* `app/pipeline/diarizer.py` — `merge_short_segments`;
* `app/pipeline/aligner.py` — `align_segment` / `pad_or_trim`;
* `app/pipeline/audio_mixer.py` — the simple two-track mix `_mix_sync`;
* `app/pipeline/merger.py` — `_merge_speech_and_music_sync`,
  `_load_and_fit`, `_apply_ducking`.

Real numbers carried as Python floats in the source are modelled as
rationals (`ℚ`); sample buffers as `List ℚ`; Python `int()` truncation as
`pyInt`; UTC datetimes as microsecond counts (Python's `datetime.now` has
microsecond resolution and pydantic's ISO-8601 serialization preserves it
exactly, so the microsecond count is a faithful abstraction of the
serialized timestamp).
-/

namespace VoiceClone

/-- Python `int()` applied to a rational: truncation toward zero. -/
def pyInt (q : ℚ) : ℤ :=
  if q < 0 then -⌊-q⌋ else ⌊q⌋

/-- A JSON value, as produced by pydantic's `model_dump_json` and consumed
by `model_validate_json`.  Objects carry their fields in order. -/
inductive JVal : Type where
  | null : JVal
  | str (s : String) : JVal
  | num (q : ℚ) : JVal
  | arr (xs : List JVal) : JVal
  | obj (fields : List (String × JVal)) : JVal

/-- The field names of a JSON object (empty for non-objects). -/
def jsonKeys : JVal → List String
  | .obj fs => fs.map Prod.fst
  | _ => []

/-- `app/models.py` `JobStatus`: the status enumeration actually declared by
the repository's `models.py` (four members only). -/
inductive JobStatus : Type where
  | pending | processing | completed | failed
  deriving DecidableEq

/-- The persisted string value of each `JobStatus` member (`models.py`). -/
def jobStatusValue : JobStatus → String
  | .pending => "pending"
  | .processing => "processing"
  | .completed => "completed"
  | .failed => "failed"

/-- All members of the `models.py` `JobStatus` enumeration. -/
def jobStatusMembers : List JobStatus :=
  [.pending, .processing, .completed, .failed]

/-- The Python member identifiers of the `models.py` `JobStatus`
enumeration, in declaration order. -/
def jobStatusMemberNames : List String :=
  ["PENDING", "PROCESSING", "COMPLETED", "FAILED"]

/-- The spec's eleven state names (§4.5 state set). -/
def specStateNames : List String :=
  ["PENDING", "EXTRACTING_AUDIO", "SEPARATING", "DIARIZING", "TRANSCRIBING",
   "AWAITING_VOICE_ASSIGNMENT", "GENERATING_SPEECH", "ALIGNING", "MERGING",
   "COMPLETED", "FAILED"]

/-- The status member names referenced by `pipeline_orchestrator.py` in
`process_upload`, in the order they are assigned (after the initial
`PENDING` from job creation). -/
def uploadStatusRefs : List String :=
  ["EXTRACTING_AUDIO", "SEPARATING", "DIARIZING", "TRANSCRIBING",
   "AWAITING_VOICE_ASSIGNMENT"]

/-- `app/models.py` `InputType`. -/
inductive InputType : Type where
  | audio | video | text
  deriving DecidableEq

/-- The persisted string value of each `InputType` member. -/
def inputTypeValue : InputType → String
  | .audio => "audio"
  | .video => "video"
  | .text => "text"

/-- `app/models.py` `Speaker` (fields in declaration order:
`speaker_id`, `label`, `total_duration`, `num_segments`,
`reference_audio`). -/
structure Speaker : Type where
  speaker_id : String
  label : String
  total_duration : ℚ
  num_segments : ℕ
  reference_audio : Option String
  deriving DecidableEq

/-- `app/models.py` `SpeakerSegment` (fields in declaration order:
`start`, `end`, `speaker_id`, `text`; Lean reserves `end`, so the second
field is named `end_` here — its JSON key below is still `"end"`). -/
structure SpeakerSegment : Type where
  start : ℚ
  end_ : ℚ
  speaker_id : String
  text : String
  deriving DecidableEq

/-- `app/models.py` `JobInfo` (fields in declaration order).  Datetimes are
microsecond counts; `metadata` is an optional JSON object. -/
structure JobInfo : Type where
  job_id : String
  status : JobStatus
  input_type : InputType
  input_filename : String
  speakers : List Speaker
  segments : List SpeakerSegment
  progress : ℚ
  error : Option String
  created_at : ℕ
  updated_at : Option ℕ
  output_file : Option String
  metadata : Option (List (String × JVal))

/-- Serialization of an optional string: pydantic emits `null` for `None`. -/
def dumpOptStr : Option String → JVal
  | none => .null
  | some s => .str s

/-- Serialization of a UTC datetime: pydantic emits an ISO-8601 UTC string
with microsecond precision; the encoding is abstracted by the (injectively
encoded) microsecond count. -/
def dumpDatetime (t : ℕ) : JVal := .num (t : ℚ)

/-- `model_dump_json` of a `Speaker`. -/
def dumpSpeaker (sp : Speaker) : JVal :=
  .obj [("speaker_id", .str sp.speaker_id),
        ("label", .str sp.label),
        ("total_duration", .num sp.total_duration),
        ("num_segments", .num (sp.num_segments : ℚ)),
        ("reference_audio", dumpOptStr sp.reference_audio)]

/-- `model_dump_json` of a `SpeakerSegment`. -/
def dumpSegment (sg : SpeakerSegment) : JVal :=
  .obj [("start", .num sg.start),
        ("end", .num sg.end_),
        ("speaker_id", .str sg.speaker_id),
        ("text", .str sg.text)]

/-- `model_dump_json` of a `JobInfo` — the `job.json` document. -/
def dumpJob (j : JobInfo) : JVal :=
  .obj [("job_id", .str j.job_id),
        ("status", .str (jobStatusValue j.status)),
        ("input_type", .str (inputTypeValue j.input_type)),
        ("input_filename", .str j.input_filename),
        ("speakers", .arr (j.speakers.map dumpSpeaker)),
        ("segments", .arr (j.segments.map dumpSegment)),
        ("progress", .num j.progress),
        ("error", dumpOptStr j.error),
        ("created_at", dumpDatetime j.created_at),
        ("updated_at", match j.updated_at with
          | none => JVal.null
          | some t => dumpDatetime t),
        ("output_file", dumpOptStr j.output_file),
        ("metadata", match j.metadata with
          | none => JVal.null
          | some fs => JVal.obj fs)]

/-- Decode a JSON string. -/
def asStr : JVal → Option String
  | .str s => some s
  | _ => none

/-- Decode a JSON number as a rational. -/
def asNum : JVal → Option ℚ
  | .num q => some q
  | _ => none

/-- Decode a JSON number as a natural number. -/
def asNat : JVal → Option ℕ
  | .num q => if q.den = 1 ∧ 0 ≤ q.num then some q.num.toNat else none
  | _ => none

/-- Decode a nullable JSON string. -/
def asOptStr : JVal → Option (Option String)
  | .null => some none
  | .str s => some (some s)
  | _ => none

/-- Decode a nullable datetime (microsecond count). -/
def asOptDatetime : JVal → Option (Option ℕ)
  | .null => some none
  | v => (asNat v).map some

/-- Decode a nullable JSON object (the `metadata` field). -/
def asMetadata : JVal → Option (Option (List (String × JVal)))
  | .null => some none
  | .obj fs => some (some fs)
  | _ => none

/-- Decode a status value string back to the `models.py` enumeration. -/
def decodeStatus (v : JVal) : Option JobStatus :=
  (asStr v).bind fun s =>
    if s = "pending" then some .pending
    else if s = "processing" then some .processing
    else if s = "completed" then some .completed
    else if s = "failed" then some .failed
    else none

/-- Decode an input-type value string. -/
def decodeInputType (v : JVal) : Option InputType :=
  (asStr v).bind fun s =>
    if s = "audio" then some .audio
    else if s = "video" then some .video
    else if s = "text" then some .text
    else none

/-- Decode every element of a JSON array, failing if any element fails. -/
def decodeList (dec : JVal → Option α) : List JVal → Option (List α)
  | [] => some []
  | v :: vs => do
      let x ← dec v
      let xs ← decodeList dec vs
      pure (x :: xs)

/-- Field lookup in a JSON object's field list. -/
def getField (fs : List (String × JVal)) (k : String) : Option JVal :=
  fs.lookup k

/-- `model_validate_json` of a `Speaker`. -/
def parseSpeaker (v : JVal) : Option Speaker :=
  match v with
  | .obj fs => do
      let sid ← (getField fs "speaker_id").bind asStr
      let label ← (getField fs "label").bind asStr
      let td ← (getField fs "total_duration").bind asNum
      let ns ← (getField fs "num_segments").bind asNat
      let ra ← (getField fs "reference_audio").bind asOptStr
      pure ⟨sid, label, td, ns, ra⟩
  | _ => none

/-- `model_validate_json` of a `SpeakerSegment`. -/
def parseSegment (v : JVal) : Option SpeakerSegment :=
  match v with
  | .obj fs => do
      let s ← (getField fs "start").bind asNum
      let e ← (getField fs "end").bind asNum
      let sid ← (getField fs "speaker_id").bind asStr
      let t ← (getField fs "text").bind asStr
      pure ⟨s, e, sid, t⟩
  | _ => none

/-- `model_validate_json` of a `JobInfo` — parsing a `job.json` document. -/
def parseJob (v : JVal) : Option JobInfo :=
  match v with
  | .obj fs => do
      let jid ← (getField fs "job_id").bind asStr
      let st ← (getField fs "status").bind decodeStatus
      let it ← (getField fs "input_type").bind decodeInputType
      let fn ← (getField fs "input_filename").bind asStr
      let sps ← (getField fs "speakers").bind fun v =>
        match v with
        | .arr xs => decodeList parseSpeaker xs
        | _ => none
      let sgs ← (getField fs "segments").bind fun v =>
        match v with
        | .arr xs => decodeList parseSegment xs
        | _ => none
      let pr ← (getField fs "progress").bind asNum
      let er ← (getField fs "error").bind asOptStr
      let ca ← (getField fs "created_at").bind asNat
      let ua ← (getField fs "updated_at").bind asOptDatetime
      let of_ ← (getField fs "output_file").bind asOptStr
      let md ← (getField fs "metadata").bind asMetadata
      pure ⟨jid, st, it, fn, sps, sgs, pr, er, ca, ua, of_, md⟩
  | _ => none

theorem decodeStatus_dump (s : JobStatus) :
    decodeStatus (.str (jobStatusValue s)) = some s := by
  cases s <;> rfl

theorem decodeInputType_dump (it : InputType) :
    decodeInputType (.str (inputTypeValue it)) = some it := by
  cases it <;> rfl

theorem asOptStr_dump (o : Option String) :
    asOptStr (dumpOptStr o) = some o := by
  cases o <;> rfl

theorem asNat_natCast (n : ℕ) : asNat (.num (n : ℚ)) = some n := by
  simp [asNat, Rat.den_natCast, Rat.num_natCast]

theorem parseSpeaker_dump (sp : Speaker) :
    parseSpeaker (dumpSpeaker sp) = some sp := by
  cases sp with
  | mk sid label td ns ra =>
    cases ra <;>
      simp [parseSpeaker, dumpSpeaker, getField, List.lookup, asStr, asNum,
            asNat, asOptStr, dumpOptStr, Rat.den_natCast, Rat.num_natCast,
            Option.bind]

theorem parseSegment_dump (sg : SpeakerSegment) :
    parseSegment (dumpSegment sg) = some sg := by
  cases sg with
  | mk s e sid t =>
    simp [parseSegment, dumpSegment, getField, List.lookup, asStr, asNum,
          Option.bind]

theorem decodeList_map (dec : JVal → Option α) (f : α → JVal)
    (h : ∀ x, dec (f x) = some x) :
    ∀ l : List α, decodeList dec (l.map f) = some l := by
  intro l
  induction l with
  | nil => rfl
  | cons x xs ih => simp [decodeList, h, ih]

theorem parseJob_dump (j : JobInfo) : parseJob (dumpJob j) = some j := by
  cases j with
  | mk jid st it fn sps sgs pr er ca ua of_ md =>
    cases er <;> cases ua <;> cases of_ <;> cases md <;>
      simp [parseJob, dumpJob, getField, List.lookup, asStr, asNum, asNat,
            asOptStr, asOptDatetime, asMetadata, dumpOptStr, dumpDatetime,
            decodeStatus_dump, decodeInputType_dump,
            decodeList_map parseSpeaker dumpSpeaker parseSpeaker_dump,
            decodeList_map parseSegment dumpSegment parseSegment_dump,
            Rat.den_natCast, Rat.num_natCast, Option.bind]

/-! ## Job Store (`app/services/job_manager.py`)

The on-disk state is modelled as an association list from `job_id` to the
JSON document stored at `jobs/<job_id>/job.json`. -/

/-- The `jobs/` storage root: one `job.json` document per job id. -/
abbrev Disk := List (String × JVal)

/-- Overwrite (or create) the document stored under a key. -/
def storeSet (d : Disk) (k : String) (v : JVal) : Disk :=
  (k, v) :: d.filter (fun p => p.1 ≠ k)

/-- `JobManager.save_job`: serialize the job to its `job.json`. -/
def saveJob (d : Disk) (j : JobInfo) : Disk :=
  storeSet d j.job_id (dumpJob j)

/-- The in-memory cache of `JobManager` (`self._jobs`). -/
structure JobManager : Type where
  jobs : List (String × JobInfo)

/-- The `JobInfo` built by `JobManager.create_job`: fresh id, `PENDING`
status and the model's defaults.  `now` and `now2` are the two
`datetime.now(timezone.utc)` results for `created_at` and `updated_at`. -/
def mkJobInfo (it : InputType) (filename jobId : String) (now now2 : ℕ) :
    JobInfo :=
  ⟨jobId, .pending, it, filename, [], [], 0, none, now, some now2, none, none⟩

/-- `JobManager.create_job`: build the job, cache it, and write through to
`job.json` (workspace directory creation is modelled separately, see
`createWorkspace`).  Returns the job together with the new cache and disk. -/
def createJob (m : JobManager) (d : Disk) (it : InputType)
    (filename jobId : String) (now now2 : ℕ) :
    JobInfo × JobManager × Disk :=
  let job := mkJobInfo it filename jobId now now2
  (job, ⟨(job.job_id, job) :: m.jobs⟩, saveJob d job)

/-- `JobManager.load_job`: read and parse `job.json` from disk. -/
def loadJob (d : Disk) (jobId : String) : Option JobInfo :=
  (d.lookup jobId).bind parseJob

/-- `JobManager._load_all_jobs`: parse every persisted job; malformed
documents are skipped. -/
def loadAllJobs (d : Disk) : List (String × JobInfo) :=
  d.filterMap (fun p => (parseJob p.2).map (fun j => (j.job_id, j)))

/-- A freshly constructed `JobManager` over an existing storage root. -/
def freshManager (d : Disk) : JobManager :=
  ⟨loadAllJobs d⟩

/-- `JobManager.get_job`: cache lookup with fallback read from disk. -/
def getJob (m : JobManager) (d : Disk) (jobId : String) : Option JobInfo :=
  match m.jobs.lookup jobId with
  | some j => some j
  | none => loadJob d jobId

/-! ## Orchestrator workflows (`app/services/pipeline_orchestrator.py`)

Each workflow communicates exclusively through `JobManager.update_job`
calls.  The job state is projected onto the fields those calls touch
(`status`, `progress`, `error`); an update sets the keyword arguments it
passes and leaves the other fields unchanged.  The status type below is
the set of status members the orchestrator and `main.py` reference —
`models.py` declares only four of them (see C1). -/

/-- The eleven status members referenced by the orchestrator workflows. -/
inductive OrchStatus : Type where
  | pending | extracting_audio | separating | diarizing | transcribing
  | awaiting_voice_assignment | generating_speech | aligning | merging
  | completed | failed
  deriving DecidableEq

/-- The projection of a Job onto the fields the workflow updates touch. -/
structure JobState : Type where
  status : OrchStatus
  progress : ℚ
  error : Option String
  deriving DecidableEq

/-- One `update_job` call: the keyword arguments it passes (`none` means
the field is not passed and keeps its value). -/
structure Upd : Type where
  status? : Option OrchStatus
  progress? : Option ℚ
  error? : Option String
  deriving DecidableEq

/-- Apply an `update_job` call to the current job state. -/
def applyUpd (s : JobState) (u : Upd) : JobState :=
  ⟨u.status?.getD s.status, u.progress?.getD s.progress,
   match u.error? with
   | some e => some e
   | none => s.error⟩

/-- An update passing `status` and `progress`. -/
def stUpd (st : OrchStatus) (p : ℚ) : Upd := ⟨some st, some p, none⟩

/-- An update passing only `progress`. -/
def prUpd (p : ℚ) : Upd := ⟨none, some p, none⟩

/-- The `except` handler's update: `status=FAILED, error=str(exc)`. -/
def failUpd (e : String) : Upd := ⟨some .failed, none, some e⟩

/-- `process_upload`: the update sequence of a successful analysis run. -/
def uploadUpdates : List Upd :=
  [stUpd .extracting_audio (1/20), stUpd .separating (3/20),
   stUpd .diarizing (7/20), stUpd .transcribing (1/2),
   stUpd .awaiting_voice_assignment (13/20)]

/-- `process_voice_replacement`: the update sequence of a successful
replacement run.  `n` is `total_segments`; `idxs` are the loop indices of
the segments that were synthesized (segments whose speaker has no
reference are skipped before the per-segment progress update). -/
def replacementUpdates (n : ℕ) (idxs : List ℕ) : List Upd :=
  stUpd .generating_speech (7/10) ::
    (idxs.map (fun i : ℕ => prUpd (7/10 + 3/20 * ((i : ℚ) + 1) / n)) ++
     [stUpd .aligning (17/20), stUpd .merging (9/10), stUpd .completed 1])

/-- `process_tts`: updates of a successful standalone TTS run. -/
def ttsUpdates : List Upd :=
  [stUpd .generating_speech (3/10), stUpd .completed 1]

/-- `process_music`: updates of a successful music-generation run. -/
def musicUpdates : List Upd :=
  [stUpd .generating_speech (3/10), stUpd .completed 1]

/-- `process_singing`: updates of a successful singing run. -/
def singingUpdates : List Upd :=
  [stUpd .generating_speech (3/10), prUpd (17/20), stUpd .completed 1]

/-- `process_mix`: updates of a successful mixing run. -/
def mixUpdates : List Upd :=
  [stUpd .merging (1/5), prUpd (7/10), stUpd .completed 1]

/-- The state of a freshly created job (`create_job`): `PENDING`,
progress `0.0`, no error. -/
def freshState : JobState := ⟨.pending, 0, none⟩

/-- All states a job passes through while a sequence of updates runs
(including the initial state). -/
def states (init : JobState) : List Upd → List JobState
  | [] => [init]
  | u :: us => init :: states (applyUpd init u) us

/-- A run interrupted by an exception after its first `k` updates: the
`except` handler appends the `FAILED` update.  Taking `k ≥ length` also
covers the successful run (every state of the full run occurs). -/
def withFail (us : List Upd) (k : ℕ) (e : String) : List Upd :=
  us.take k ++ [failUpd e]

/-- The quiescent state after a successful analysis run, from which the
replacement workflow is started (`main.py` checks
`status == AWAITING_VOICE_ASSIGNMENT` before launching it). -/
def awaitingState : JobState := uploadUpdates.foldl applyUpd freshState

/-- A job state reachable through the workflows' create and update
operations: creation, then one of the workflow runs (possibly interrupted
by a failure at any point), with the replacement workflow chained after a
completed analysis run. -/
def Reachable (s : JobState) : Prop :=
  (∃ k e, s ∈ states freshState (withFail uploadUpdates k e)) ∨
  (∃ n idxs k e,
    s ∈ states awaitingState (withFail (replacementUpdates n idxs) k e)) ∨
  (∃ k e, s ∈ states freshState (withFail ttsUpdates k e)) ∨
  (∃ k e, s ∈ states freshState (withFail musicUpdates k e)) ∨
  (∃ k e, s ∈ states freshState (withFail singingUpdates k e)) ∨
  (∃ k e, s ∈ states freshState (withFail mixUpdates k e))

/-- An update of the normal (non-failure) path: it does not pass `error`
and never sets `FAILED`. -/
def GoodUpd (u : Upd) : Prop :=
  u.error? = none ∧ u.status? ≠ some .failed

theorem goodUpd_stUpd (st : OrchStatus) (p : ℚ) (h : st ≠ .failed) :
    GoodUpd (stUpd st p) := by
  simp [GoodUpd, stUpd, h]

theorem goodUpd_prUpd (p : ℚ) : GoodUpd (prUpd p) := by
  simp [GoodUpd, prUpd]

theorem goodUpd_upload : ∀ u ∈ uploadUpdates, GoodUpd u := by
  intro u hu
  simp only [uploadUpdates, List.mem_cons, List.mem_singleton] at hu
  rcases hu with rfl | rfl | rfl | rfl | rfl | h
  · exact goodUpd_stUpd _ _ (by simp)
  · exact goodUpd_stUpd _ _ (by simp)
  · exact goodUpd_stUpd _ _ (by simp)
  · exact goodUpd_stUpd _ _ (by simp)
  · exact goodUpd_stUpd _ _ (by simp)
  · simp at h

theorem goodUpd_replacement (n : ℕ) (idxs : List ℕ) :
    ∀ u ∈ replacementUpdates n idxs, GoodUpd u := by
  intro u hu
  simp only [replacementUpdates, List.mem_cons, List.mem_append,
    List.mem_map, List.mem_singleton] at hu
  rcases hu with rfl | ⟨⟨i, _, rfl⟩ | rfl | rfl | rfl | h⟩
  · exact goodUpd_stUpd _ _ (by simp)
  · exact goodUpd_prUpd _
  · exact goodUpd_stUpd _ _ (by simp)
  · exact goodUpd_stUpd _ _ (by simp)
  · exact goodUpd_stUpd _ _ (by simp)
  · simp at h

theorem goodUpd_tts : ∀ u ∈ ttsUpdates, GoodUpd u := by
  intro u hu
  simp only [ttsUpdates, List.mem_cons, List.mem_singleton] at hu
  rcases hu with rfl | rfl | h
  · exact goodUpd_stUpd _ _ (by simp)
  · exact goodUpd_stUpd _ _ (by simp)
  · simp at h

theorem goodUpd_music : ∀ u ∈ musicUpdates, GoodUpd u := goodUpd_tts

theorem goodUpd_singing : ∀ u ∈ singingUpdates, GoodUpd u := by
  intro u hu
  simp only [singingUpdates, List.mem_cons, List.mem_singleton] at hu
  rcases hu with rfl | rfl | rfl | h
  · exact goodUpd_stUpd _ _ (by simp)
  · exact goodUpd_prUpd _
  · exact goodUpd_stUpd _ _ (by simp)
  · simp at h

theorem goodUpd_mix : ∀ u ∈ mixUpdates, GoodUpd u := by
  intro u hu
  simp only [mixUpdates, List.mem_cons, List.mem_singleton] at hu
  rcases hu with rfl | rfl | rfl | h
  · exact goodUpd_stUpd _ _ (by simp)
  · exact goodUpd_prUpd _
  · exact goodUpd_stUpd _ _ (by simp)
  · simp at h

theorem states_coupling (e : String) :
    ∀ (l : List Upd), (∀ u ∈ l, GoodUpd u) →
      ∀ (init : JobState), init.error = none → init.status ≠ .failed →
        ∀ s ∈ states init (l ++ [failUpd e]),
          (s.status = .failed ↔ s.error ≠ none) := by
  intro l
  induction l with
  | nil =>
    intro _ init hie his s hs
    simp only [List.nil_append, states, List.mem_cons,
      List.not_mem_nil, or_false, List.mem_singleton] at hs
    rcases hs with rfl | rfl
    · simp [hie, his]
    · simp [applyUpd, failUpd]
  | cons u us ih =>
    intro hg init hie his s hs
    simp only [List.cons_append, states, List.mem_cons] at hs
    rcases hs with rfl | hs
    · simp [hie, his]
    · have hgu : GoodUpd u := hg u (List.mem_cons_self u us)
      have hie' : (applyUpd init u).error = none := by
        simp [applyUpd, hgu.1, hie]
      have his' : (applyUpd init u).status ≠ .failed := by
        rcases hst : u.status? with _ | st
        · simpa [applyUpd, hst] using his
        · have := hgu.2
          simp only [hst] at this
          simp only [applyUpd, hst, Option.getD_some]
          intro hc
          exact this (by rw [hc])
      exact ih (fun v hv => hg v (List.mem_cons_of_mem u hv))
        (applyUpd init u) hie' his' s hs

theorem goodUpd_take (us : List Upd) (k : ℕ) (h : ∀ u ∈ us, GoodUpd u) :
    ∀ u ∈ us.take k, GoodUpd u :=
  fun u hu => h u ((List.take_sublist k us).mem hu)

/-! ## Claims C1–C3 -/

/-- C1: the claim asserts that every one of the spec's eleven state names
is a value of the persisted status enumeration and that the analysis
workflow drives the status through PENDING, EXTRACTING_AUDIO, SEPARATING,
DIARIZING, TRANSCRIBING, AWAITING_VOICE_ASSIGNMENT.  This theorem
evaluates the code at the failing reference: `models.py`'s `JobStatus`
declares only PENDING, PROCESSING, COMPLETED and FAILED, so the member
`EXTRACTING_AUDIO` that `process_upload` assigns first — and every other
status name the orchestrator's upload workflow references — is absent,
and only three of the spec's eleven names are members. -/
theorem C1_jobstatus_enum_gap :
    jobStatusMemberNames = ["PENDING", "PROCESSING", "COMPLETED", "FAILED"] ∧
    jobStatusMembers.map jobStatusValue
      = ["pending", "processing", "completed", "failed"] ∧
    (∀ n ∈ uploadStatusRefs, n ∉ jobStatusMemberNames) ∧
    specStateNames.filter (fun n => decide (n ∈ jobStatusMemberNames))
      = ["PENDING", "COMPLETED", "FAILED"] := by
  refine ⟨rfl, rfl, ?_, by decide⟩
  decide

/-- C2 (counterexample): the persisted `job.json` of a concrete job does
not use the §3 attribute names claimed — `input_kind` is not a field of
the serialized Job, `segment_count` and `assigned_voice_ref` are not
fields of a serialized Speaker, and `start_time`/`end_time` are not fields
of a serialized Segment. -/
theorem C2_field_names_counterexample :
    "input_kind" ∉ jsonKeys (dumpJob
        ⟨"j0", .pending, .audio, "f.wav", [⟨"s1", "Speaker 1", 0, 0, none⟩],
         [⟨0, 1, "s1", "hi"⟩], 0, none, 0, none, none, none⟩) ∧
    "segment_count" ∉ jsonKeys (dumpSpeaker ⟨"s1", "Speaker 1", 0, 0, none⟩) ∧
    "assigned_voice_ref" ∉ jsonKeys (dumpSpeaker ⟨"s1", "Speaker 1", 0, 0, none⟩) ∧
    "start_time" ∉ jsonKeys (dumpSegment ⟨0, 1, "s1", "hi"⟩) ∧
    "end_time" ∉ jsonKeys (dumpSegment ⟨0, 1, "s1", "hi"⟩) := by
  refine ⟨?_, ?_, ?_, ?_, ?_⟩ <;> decide

/-- C2 (amended): the `job.json` document serializes the Job record with
the `models.py` attribute names — `input_type` on the Job, `num_segments`
and `reference_audio` on each Speaker, `start`/`end` on each Segment — and
enum values in their lowercase string form. -/
theorem C2_field_names (j : JobInfo) (sp : Speaker) (sg : SpeakerSegment) :
    jsonKeys (dumpJob j)
      = ["job_id", "status", "input_type", "input_filename", "speakers",
         "segments", "progress", "error", "created_at", "updated_at",
         "output_file", "metadata"] ∧
    jsonKeys (dumpSpeaker sp)
      = ["speaker_id", "label", "total_duration", "num_segments",
         "reference_audio"] ∧
    jsonKeys (dumpSegment sg) = ["start", "end", "speaker_id", "text"] ∧
    jobStatusValue j.status
      ∈ ["pending", "processing", "completed", "failed"] := by
  refine ⟨rfl, rfl, rfl, ?_⟩
  cases j.status <;> simp [jobStatusValue]

/-- C3: creating a job (which writes `job.json`), discarding the cache,
constructing a fresh Job Store over the same storage root and reading the
same `job_id` yields exactly the Job returned by create (timestamps are
preserved at microsecond serialization precision). -/
theorem C3_create_reload_roundtrip (m : JobManager) (d : Disk)
    (it : InputType) (filename jobId : String) (now now2 : ℕ) :
    getJob (freshManager (createJob m d it filename jobId now now2).2.2)
        (createJob m d it filename jobId now now2).2.2 jobId
      = some (createJob m d it filename jobId now now2).1 := by
  simp only [createJob, saveJob, storeSet, mkJobInfo]
  simp [freshManager, loadAllJobs, getJob, List.filterMap_cons,
        parseJob_dump, List.lookup, mkJobInfo]

/-! ## Claims C7–C8 -/

/-- C7: in every Job state reachable through the workflows' create and
update operations, `status = FAILED` holds exactly when the `error` field
is set: workflows set `error` only together with `FAILED`, never clear it,
and every other update leaves it untouched along error-free runs. -/
theorem C7_status_error_coupling (s : JobState) (h : Reachable s) :
    s.status = .failed ↔ s.error ≠ none := by
  have hf1 : freshState.error = none := rfl
  have hf2 : freshState.status ≠ .failed := by simp [freshState]
  have ha1 : awaitingState.error = none := by decide
  have ha2 : awaitingState.status ≠ .failed := by decide
  rcases h with ⟨k, e, hm⟩ | ⟨n, idxs, k, e, hm⟩ | ⟨k, e, hm⟩ |
    ⟨k, e, hm⟩ | ⟨k, e, hm⟩ | ⟨k, e, hm⟩ <;>
    simp only [withFail] at hm
  · exact states_coupling e _ (goodUpd_take _ k goodUpd_upload) _
      hf1 hf2 s hm
  · exact states_coupling e _
      (goodUpd_take _ k (goodUpd_replacement n idxs)) _ ha1 ha2 s hm
  · exact states_coupling e _ (goodUpd_take _ k goodUpd_tts) _ hf1 hf2 s hm
  · exact states_coupling e _ (goodUpd_take _ k goodUpd_music) _ hf1 hf2 s hm
  · exact states_coupling e _ (goodUpd_take _ k goodUpd_singing) _
      hf1 hf2 s hm
  · exact states_coupling e _ (goodUpd_take _ k goodUpd_mix) _ hf1 hf2 s hm

/-- C7 witness: the coupling at the freshly created job state. -/
theorem C7_status_error_coupling_witness :
    freshState.status = OrchStatus.failed ↔ freshState.error ≠ none :=
  C7_status_error_coupling freshState (Or.inl ⟨0, "", by decide⟩)

/-- The progress values a run publishes, in order: the `progress` keyword
arguments of its `update_job` calls. -/
def publishedProgress (us : List Upd) : List ℚ :=
  us.filterMap (fun u => u.progress?)

/-- C8: within one workflow run (analysis, replacement, TTS, music, mix),
the sequence of published progress values is non-decreasing.  For the
replacement run, `idxs` — the indices of the synthesized segments — is
strictly increasing and bounded by `total_segments`. -/
theorem filterMap_progress_map (g : ℕ → ℚ) (l : List ℕ) :
    List.filterMap (fun u => u.progress?) (l.map (fun i => prUpd (g i)))
      = l.map g := by
  induction l with
  | nil => rfl
  | cons a l ih =>
    simp only [List.map_cons, List.filterMap_cons, prUpd] at ih ⊢
    rw [ih]

theorem C8_monotonic_progress (n : ℕ) (idxs : List ℕ)
    (h1 : List.Pairwise (· < ·) idxs) (h2 : ∀ i ∈ idxs, i < n) :
    List.Chain' (· ≤ ·) (publishedProgress uploadUpdates) ∧
    List.Chain' (· ≤ ·) (publishedProgress (replacementUpdates n idxs)) ∧
    List.Chain' (· ≤ ·) (publishedProgress ttsUpdates) ∧
    List.Chain' (· ≤ ·) (publishedProgress musicUpdates) ∧
    List.Chain' (· ≤ ·) (publishedProgress mixUpdates) := by
  refine ⟨?hu, ?hr, ?ht, ?hm, ?hx⟩
  case hu => norm_num [publishedProgress, uploadUpdates, stUpd,
    List.filterMap_cons, List.chain'_cons]
  case ht => norm_num [publishedProgress, ttsUpdates, stUpd,
    List.filterMap_cons, List.chain'_cons]
  case hm => norm_num [publishedProgress, musicUpdates, stUpd,
    List.filterMap_cons, List.chain'_cons]
  case hx => norm_num [publishedProgress, mixUpdates, stUpd, prUpd,
    List.filterMap_cons, List.chain'_cons]
  case hr =>
  have hpub : publishedProgress (replacementUpdates n idxs)
      = 7/10 :: (idxs.map (fun i : ℕ => 7/10 + 3/20 * ((i : ℚ) + 1) / n) ++
          [17/20, 9/10, 1]) := by
    simp only [publishedProgress, replacementUpdates, List.filterMap_cons,
      stUpd, List.filterMap_append, filterMap_progress_map,
      List.filterMap_nil]
  rcases n with _ | m
  · have hidxs : idxs = [] := by
      cases idxs with
      | nil => rfl
      | cons a l =>
        exact (Nat.not_lt_zero a (h2 a (List.mem_cons_self a l))).elim
    subst hidxs
    rw [hpub]
    norm_num [List.chain'_cons]
  · rw [hpub, List.chain'_iff_pairwise]
    have hn : (0 : ℚ) < ((m + 1 : ℕ) : ℚ) := by positivity
    have hub : ∀ i ∈ idxs,
        7/10 + 3/20 * ((i : ℚ) + 1) / ((m + 1 : ℕ) : ℚ) ≤ 17/20 := by
      intro i hi
      have hle : ((i : ℚ) + 1) ≤ ((m + 1 : ℕ) : ℚ) := by
        exact_mod_cast Nat.succ_le_of_lt (h2 i hi)
      have : 3/20 * ((i : ℚ) + 1) / ((m + 1 : ℕ) : ℚ) ≤ 3/20 := by
        rw [div_le_iff₀ hn]
        nlinarith
      linarith
    have hlb : ∀ i : ℕ,
        (7/10 : ℚ) ≤ 7/10 + 3/20 * ((i : ℚ) + 1) / ((m + 1 : ℕ) : ℚ) := by
      intro i
      have : (0 : ℚ) ≤ 3/20 * ((i : ℚ) + 1) / ((m + 1 : ℕ) : ℚ) := by
        positivity
      linarith
    refine List.pairwise_cons.mpr ⟨?_, ?_⟩
    · intro b hb
      rcases List.mem_append.mp hb with hb | hb
      · rcases List.mem_map.mp hb with ⟨i, _, rfl⟩
        exact hlb i
      · simp only [List.mem_cons] at hb
        rcases hb with rfl | rfl | rfl | h
        · norm_num
        · norm_num
        · norm_num
        · simp at h
    · refine List.pairwise_append.mpr
        ⟨?_, by norm_num [List.pairwise_cons], ?_⟩
      · refine h1.map _ ?_
        intro a b hab
        have hle : ((a : ℚ) + 1) ≤ ((b : ℚ) + 1) := by
          exact_mod_cast Nat.succ_le_succ hab.le
        have hmul : 3/20 * ((a : ℚ) + 1) ≤ 3/20 * ((b : ℚ) + 1) :=
          mul_le_mul_of_nonneg_left hle (by norm_num)
        have hdiv := (div_le_div_iff_of_pos_right hn).mpr hmul
        linarith
      · intro x hx y hy
        rcases List.mem_map.mp hx with ⟨i, hi, rfl⟩
        have := hub i hi
        simp only [List.mem_cons] at hy
        rcases hy with rfl | rfl | rfl | h
        · linarith
        · linarith
        · linarith
        · simp at h

/-- C8 witness: the replacement run with three segments, the first and
third synthesized. -/
theorem C8_monotonic_progress_witness :
    List.Pairwise (fun a b => a < b) [0, 2] ∧ (∀ i ∈ [0, 2], i < 3) ∧
    List.Chain' (· ≤ ·) (publishedProgress (replacementUpdates 3 [0, 2])) :=
  ⟨by decide, by decide,
   (C8_monotonic_progress 3 [0, 2] (by decide) (by decide)).2.1⟩

/-! ## Diarizer segment post-processing (`app/pipeline/diarizer.py`) -/

/-- The SpeakerSegment record as constructed and consumed by `diarizer.py`
and the orchestrator: fields `speaker_id`, `start_time`, `end_time`,
`text` (note `models.py` declares `start`/`end` instead — see C2). -/
structure PipelineSegment : Type where
  speaker_id : String
  start_time : ℚ
  end_time : ℚ
  text : String
  deriving DecidableEq

/-- The merge branch of `merge_short_segments`: extend `current` with a
same-speaker segment — `end_time` becomes the max, and a non-empty text is
concatenated with single-space separation. -/
def mergeInto (current seg : PipelineSegment) : PipelineSegment :=
  ⟨current.speaker_id, current.start_time,
   max current.end_time seg.end_time,
   if seg.text = "" then current.text
   else if current.text = "" then seg.text
   else current.text ++ " " ++ seg.text⟩

/-- The walk over the sorted tail of `merge_short_segments`: merge a
consecutive same-speaker segment whose gap to `current` is at most
`gap_threshold`, otherwise finalise `current` and start afresh. -/
def mergeWalk (gap_threshold : ℚ) :
    PipelineSegment → List PipelineSegment → List PipelineSegment
  | current, [] => [current]
  | current, seg :: rest =>
    if seg.speaker_id = current.speaker_id ∧
        seg.start_time - current.end_time ≤ gap_threshold then
      mergeWalk gap_threshold (mergeInto current seg) rest
    else
      current ::
        mergeWalk gap_threshold
          ⟨seg.speaker_id, seg.start_time, seg.end_time, seg.text⟩ rest

/-- `SpeakerDiarizer.merge_short_segments`: sort by `start_time`, merge
adjacent same-speaker segments with gap ≤ `gap_threshold`, then discard
every merged segment whose duration is below `min_duration`.  The
orchestrator calls this with `min_duration=0.5`, `gap_threshold=0.3`. -/
def merge_short_segments (segments : List PipelineSegment)
    (min_duration gap_threshold : ℚ) : List PipelineSegment :=
  match segments.mergeSort (fun a b => decide (a.start_time ≤ b.start_time)) with
  | [] => []
  | s0 :: rest =>
    (mergeWalk gap_threshold
        ⟨s0.speaker_id, s0.start_time, s0.end_time, s0.text⟩ rest).filter
      (fun seg => decide (min_duration ≤ seg.end_time - seg.start_time))

/-! ## Workspace creation (`app/services/job_manager.py`) -/

/-- `_JOB_SUBDIRS`: the sub-directories created inside every job folder. -/
def jobSubdirs : List String :=
  ["input", "vocals", "music", "segments", "output", "references"]

/-- The sub-directory paths created under `jobs/<job_id>/`. -/
def createdSubdirPaths (job_id : String) : List String :=
  jobSubdirs.map (fun s => "jobs/" ++ job_id ++ "/" ++ s)

/-- The directory set `create_job` materialises for a job: the job root
plus each entry of `_JOB_SUBDIRS`. -/
def workspacePaths (job_id : String) : Finset String :=
  insert ("jobs/" ++ job_id) (createdSubdirPaths job_id).toFinset

/-- Workspace creation: `mkdir(parents=True, exist_ok=True)` on the job
root and each sub-directory, i.e. union into the set of existing
directories (creating an already-existing directory succeeds). -/
def createWorkspace (fs : Finset String) (job_id : String) : Finset String :=
  fs ∪ workspacePaths job_id

/-! ## Claims C6 and C9 -/

/-- C6: every segment surviving the merge-and-filter pass has duration at
least `min_duration`; with the orchestrator's `min_duration = 0.5` this is
the claimed `end_time − start_time ≥ 0.5` (the merging behaviour itself —
gap ≤ `gap_threshold`, same speaker, single-space text concatenation — is
the definition of `mergeWalk`/`mergeInto`). -/
theorem C6_merge_filter_min_duration (segments : List PipelineSegment)
    (min_duration gap_threshold : ℚ) :
    ∀ seg ∈ merge_short_segments segments min_duration gap_threshold,
      min_duration ≤ seg.end_time - seg.start_time := by
  intro seg h
  simp only [merge_short_segments] at h
  split at h
  · exact absurd h (List.not_mem_nil seg)
  · exact of_decide_eq_true (List.mem_filter.mp h).2

/-- C6 witness: a single one-second segment survives the pass and has
duration at least 0.5. -/
theorem C6_merge_filter_min_duration_witness :
    (1/2 : ℚ) ≤ (PipelineSegment.mk "s1" 0 1 "hi").end_time
      - (PipelineSegment.mk "s1" 0 1 "hi").start_time :=
  C6_merge_filter_min_duration [⟨"s1", 0, 1, "hi"⟩] (1/2) (3/10)
    ⟨"s1", 0, 1, "hi"⟩
    (by norm_num [merge_short_segments, List.mergeSort_singleton, mergeWalk,
      List.filter])

/-- C9 (counterexample): the workspace creation of `create_job` creates
six sub-directories under `jobs/<job_id>/`, not the seven the claim
asserts. -/
theorem C9_subdir_count_counterexample :
    (createdSubdirPaths "a").length = 6 ∧
    (createdSubdirPaths "a").length ≠ 7 := by
  decide

/-- C9 (amended): workspace creation creates all six subdirectories listed
in §3 (`input`, `vocals`, `music`, `segments`, `references`, `output`)
under `jobs/<job_id>/`, and repeating creation for an existing workspace
is idempotent: it succeeds and the directory tree is unchanged. -/
theorem C9_workspace_idempotent (fs : Finset String) (job_id : String) :
    createWorkspace (createWorkspace fs job_id) job_id
        = createWorkspace fs job_id ∧
    workspacePaths job_id ⊆ createWorkspace fs job_id ∧
    jobSubdirs.length = 6 := by
  refine ⟨?_, Finset.subset_union_right, rfl⟩
  simp [createWorkspace, Finset.union_assoc, Finset.union_idempotent]

/-! ## Shared DSP primitives

Audio buffers are lists of rational samples.  numpy's in-place slice
multiplication is modelled by `mulSlice`, which rebuilds the array
index-wise; values and lengths agree with the slice assignment. -/

/-- `np.linspace(a, b, num)` with the default inclusive endpoint. -/
def linspace (a b : ℚ) (num : ℕ) : List ℚ :=
  if num = 0 then []
  else if num = 1 then [a]
  else (List.range num).map (fun i : ℕ => a + (b - a) * i / ((num : ℚ) - 1))

/-- Python slice `xs[:k]` for a possibly negative `k` (a negative bound
counts from the end of the list, clamped at zero). -/
def pyTake (xs : List ℚ) (k : ℤ) : List ℚ :=
  if k < 0 then xs.take ((xs.length : ℤ) + k).toNat else xs.take k.toNat

/-- numpy slice multiplication `xs[start : start + len(fs)] *= fs`. -/
def mulSlice (xs : List ℚ) (start : ℕ) (fs : List ℚ) : List ℚ :=
  (List.range xs.length).map (fun i : ℕ =>
    if start ≤ i ∧ i - start < fs.length then
      xs.getD i 0 * fs.getD (i - start) 0
    else xs.getD i 0)

/-- `np.max(np.abs(audio))` (0 for an empty signal). -/
def maxAbs (xs : List ℚ) : ℚ := xs.foldr (fun x m => max |x| m) 0

/-- `_normalize(audio, target_db)` (identical in `audio_mixer.py` and
`merger.py`): peak-normalize, leaving near-silent signals unchanged.
`targetLinear` stands for `10 ** (target_db / 20.0)` — both call sites fix
`target_db = −1.0`; the constant is irrational, so it is carried as a
parameter (its value plays no role in the claims below). -/
def normalize (targetLinear : ℚ) (audio : List ℚ) : List ℚ :=
  let peak := maxAbs audio
  if peak < 1 / 100000000 then audio
  else audio.map (fun x => x * (targetLinear / peak))

theorem length_linspace (a b : ℚ) (num : ℕ) :
    (linspace a b num).length = num := by
  simp only [linspace]
  split
  · simp [*]
  · split
    · simp [*]
    · simp

theorem length_mulSlice (xs : List ℚ) (start : ℕ) (fs : List ℚ) :
    (mulSlice xs start fs).length = xs.length := by
  simp [mulSlice]

theorem length_pyTake_nonneg (xs : List ℚ) (k : ℤ) (h0 : 0 ≤ k)
    (h1 : k ≤ (xs.length : ℤ)) : (pyTake xs k).length = k.toNat := by
  rw [pyTake, if_neg (not_lt.mpr h0), List.length_take]
  omega

theorem length_pyTake_nonneg_le (xs : List ℚ) (k : ℤ) (h0 : 0 ≤ k) :
    ((pyTake xs k).length : ℤ) ≤ k := by
  rw [pyTake, if_neg (not_lt.mpr h0), List.length_take]
  omega

theorem mulSlice_getD_outside (xs : List ℚ) (s : ℕ) (fs : List ℚ) (n : ℕ)
    (h : n < xs.length) (hout : n < s ∨ s + fs.length ≤ n) :
    (mulSlice xs s fs).getD n 0 = xs.getD n 0 := by
  have hb : n < (mulSlice xs s fs).length := by
    rw [length_mulSlice]; exact h
  rw [List.getD_eq_getElem _ _ hb]
  simp only [mulSlice, List.getElem_map, List.getElem_range]
  rw [if_neg]
  omega

theorem length_normalize (c : ℚ) (audio : List ℚ) :
    (normalize c audio).length = audio.length := by
  simp only [normalize]
  split
  · rfl
  · simp

/-! ## Aligner (`app/pipeline/aligner.py`) -/

/-- `AudioAligner.pad_or_trim`: truncate (with a 10 ms linear fade-out at
the cut point) or append zero samples.  `target_length` is a Python `int`
and may be negative: `audio[:target_length]` then keeps
`len(audio) + target_length` samples (clamped at zero) and the fade is
skipped (`min(int(0.01*sr), target_length)` is negative), so the
exact-length guarantee holds only for non-negative targets
(`pad_or_trim_length`). -/
def pad_or_trim (audio : List ℚ) (target_length : ℤ) (sr : ℕ) : List ℚ :=
  if (audio.length : ℤ) = target_length then audio
  else if target_length < (audio.length : ℤ) then
    let trimmed := pyTake audio target_length
    let fade_samples := min (pyInt ((1/100 : ℚ) * sr)) target_length
    if 0 < fade_samples then
      mulSlice trimmed (trimmed.length - fade_samples.toNat)
        (linspace 1 0 fade_samples.toNat)
    else trimmed
  else audio ++ List.replicate (target_length - audio.length).toNat 0

/-- `AudioAligner.align_segment` on the loaded mono clip: within 50 ms
tolerance only pad/trim; stretch ratio within `[0.5, 2.5]` time-stretch
then pad/trim; otherwise fall back to pad/trim.  `time_stretch` stands for
`librosa.effects.time_stretch`, an opaque external worker; `target_samples`
is the Python `int(target_duration * sr)` — truncation, not rounding, and
negative when `target_duration` is negative. -/
def align_segment (time_stretch : List ℚ → ℚ → List ℚ)
    (audio : List ℚ) (target_duration : ℚ) (sr : ℕ) : List ℚ :=
  let actual_duration : ℚ := (audio.length : ℚ) / sr
  let target_samples : ℤ := pyInt (target_duration * sr)
  if |actual_duration - target_duration| ≤ 1/20 then
    pad_or_trim audio target_samples sr
  else
    let stretch_ratio := actual_duration / target_duration
    if 1/2 ≤ stretch_ratio ∧ stretch_ratio ≤ 5/2 then
      pad_or_trim (time_stretch audio stretch_ratio) target_samples sr
    else
      pad_or_trim audio target_samples sr

theorem pad_or_trim_length (audio : List ℚ) (target_length : ℤ) (sr : ℕ)
    (h : 0 ≤ target_length) :
    (pad_or_trim audio target_length sr).length = target_length.toNat := by
  simp only [pad_or_trim]
  split
  · omega
  · split
    · have hlen : (pyTake audio target_length).length = target_length.toNat :=
        length_pyTake_nonneg audio target_length h (by omega)
      split
      · rw [length_mulSlice, hlen]
      · exact hlen
    · rw [List.length_append, List.length_replicate]
      omega

theorem align_segment_length_eq (time_stretch : List ℚ → ℚ → List ℚ)
    (audio : List ℚ) (target_duration : ℚ) (sr : ℕ)
    (h : 0 ≤ pyInt (target_duration * sr)) :
    (align_segment time_stretch audio target_duration sr).length
      = (pyInt (target_duration * sr)).toNat := by
  simp only [align_segment]
  split
  · exact pad_or_trim_length _ _ _ h
  · split
    · exact pad_or_trim_length _ _ _ h
    · exact pad_or_trim_length _ _ _ h

theorem pyInt_nonneg (q : ℚ) (h : 0 ≤ q) : 0 ≤ pyInt q := by
  rw [pyInt, if_neg (not_lt.mpr h)]
  exact Int.floor_nonneg.mpr h

/-! ## Claims C5 -/

/-- C5 (counterexample): the claim's `round(target_duration × sr)` is
wrong — the aligner allocates `int(target_duration * sr)` samples, which
truncates.  At `target_duration = 0.32`, `sr = 5` the product is `1.6`:
the aligned clip has 1 sample while `round(1.6) = 2` (the branch taken is
the out-of-bounds-ratio fallback, so the opaque stretch worker is not
involved). -/
theorem C5_round_counterexample :
    (align_segment (fun a _ => a) ([] : List ℚ) (8/25) 5).length = 1 ∧
    round ((8/25 : ℚ) * 5) = 2 := by
  constructor
  · rw [align_segment_length_eq _ _ _ _ (by norm_num [pyInt])]
    norm_num [pyInt]
  · norm_num [round_eq]

/-- C5 (amended): for every aligner input with `target_duration > 0`, in
every branch — within-tolerance pad/trim, time-stretch, and
out-of-bounds-ratio fallback — the aligned clip contains exactly
`int(target_duration × sr)` samples, i.e. `⌊target_duration × sr⌋`
(truncation, not rounding; for a negative target the code instead keeps
`len(audio) + target` samples via Python's negative slice, see
`pad_or_trim`). -/
theorem C5_alignment_length (time_stretch : List ℚ → ℚ → List ℚ)
    (audio : List ℚ) (target_duration : ℚ) (sr : ℕ)
    (h : 0 < target_duration) :
    (align_segment time_stretch audio target_duration sr).length
      = (pyInt (target_duration * sr)).toNat :=
  align_segment_length_eq time_stretch audio target_duration sr
    (pyInt_nonneg _ (mul_nonneg h.le (Nat.cast_nonneg sr)))

/-- C5 witness: a one-second target at `sr = 2` padding an empty clip to
two samples. -/
theorem C5_alignment_length_witness :
    (0 : ℚ) < 1 ∧
    (align_segment (fun a _ => a) ([] : List ℚ) 1 2).length
      = (pyInt ((1 : ℚ) * ((2:ℕ) : ℚ))).toNat :=
  ⟨by norm_num, C5_alignment_length (fun a _ => a) [] 1 2 (by norm_num)⟩

/-! ## Simple two-track mix (`app/pipeline/audio_mixer.py`) -/

/-- `AudioMixer._apply_delay_and_fit`: prepend `delay_samples` zeros, then
trim or zero-pad to exactly `target_samples` (`music_delay ≥ 0` is
validated by `mix`, so the delay is a natural number; the code's
`delay_samples <= 0` branch coincides with an empty prefix). -/
def apply_delay_and_fit (audio : List ℚ) (delay_samples target_samples : ℕ) :
    List ℚ :=
  let delayed := List.replicate delay_samples 0 ++ audio
  if target_samples ≤ delayed.length then delayed.take target_samples
  else delayed ++ List.replicate (target_samples - delayed.length) 0

/-- `AudioMixer._apply_crossfade`: a 0.5 s linear fade-in where the music
starts (after the delay) and a 0.5 s linear fade-out at the end. -/
def apply_crossfade (audio : List ℚ) (start_offset sr : ℕ) : List ℚ :=
  let fade_samples := (pyInt ((1/2 : ℚ) * sr)).toNat
  let a1 :=
    if start_offset < audio.length then
      let fade_end := min (start_offset + fade_samples) audio.length
      let fade_length := fade_end - start_offset
      if 0 < fade_length then
        mulSlice audio start_offset (linspace 0 1 fade_length)
      else audio
    else audio
  if fade_samples < a1.length then
    mulSlice a1 (a1.length - fade_samples) (linspace 1 0 fade_samples)
  else a1

/-- `AudioMixer._mix_sync` up to (not including) normalization: fit and
fade the music, scale both tracks by their volumes, and sum. -/
def mix_pre (tts_audio music_audio : List ℚ)
    (tts_volume music_volume music_delay : ℚ) (sr : ℕ) : List ℚ :=
  let target_samples := tts_audio.length
  let delay_samples := (pyInt (music_delay * sr)).toNat
  let music_fitted := apply_delay_and_fit music_audio delay_samples
    target_samples
  let music_with_fade := apply_crossfade music_fitted delay_samples sr
  let tts_adjusted := tts_audio.map (fun x => x * tts_volume)
  let music_adjusted := music_with_fade.map (fun x => x * music_volume)
  List.zipWith (· + ·) tts_adjusted music_adjusted

/-- `AudioMixer._mix_sync`: the pre-normalization mix followed by peak
normalization to −1 dBFS. -/
def mix_sync (tts_audio music_audio : List ℚ)
    (tts_volume music_volume music_delay : ℚ) (sr : ℕ)
    (targetLinear : ℚ) : List ℚ :=
  normalize targetLinear
    (mix_pre tts_audio music_audio tts_volume music_volume music_delay sr)

theorem length_apply_delay_and_fit (audio : List ℚ) (d t : ℕ) :
    (apply_delay_and_fit audio d t).length = t := by
  simp only [apply_delay_and_fit]
  split
  · simp only [List.length_take]
    omega
  · simp only [List.length_append, List.length_replicate] at *
    omega

theorem length_apply_crossfade (audio : List ℚ) (s0 sr : ℕ) :
    (apply_crossfade audio s0 sr).length = audio.length := by
  simp only [apply_crossfade]
  split
  · split
    · split
      · rw [length_mulSlice, length_mulSlice]
      · rw [length_mulSlice]
    · split
      · rw [length_mulSlice]
      · rfl
  · split
    · rw [length_mulSlice]
    · rfl

theorem apply_crossfade_getD (audio : List ℚ) (s0 sr n : ℕ)
    (h1 : s0 + (pyInt ((1/2 : ℚ) * sr)).toNat ≤ n)
    (h2 : n + (pyInt ((1/2 : ℚ) * sr)).toNat < audio.length) :
    (apply_crossfade audio s0 sr).getD n 0 = audio.getD n 0 := by
  simp only [apply_crossfade]
  set fd := (pyInt ((1/2 : ℚ) * sr)).toNat with hfd
  have hn : n < audio.length := by omega
  have step1 :
      ∀ a1 : List ℚ, a1.length = audio.length → a1.getD n 0 = audio.getD n 0 →
        (if fd < a1.length then
            mulSlice a1 (a1.length - fd) (linspace 1 0 fd)
          else a1).getD n 0 = audio.getD n 0 := by
    intro a1 hlen hval
    split
    · rw [mulSlice_getD_outside _ _ _ _ (by omega)]
      · exact hval
      · left
        omega
    · exact hval
  split
  · split
    · apply step1
      · rw [length_mulSlice]
      · rw [mulSlice_getD_outside _ _ _ _ hn]
        rw [length_linspace]
        omega
    · exact step1 audio rfl rfl
  · exact step1 audio rfl rfl

theorem mix_pre_getD_outside_fades (tts_audio music_audio : List ℚ)
    (tts_volume music_volume music_delay : ℚ) (sr n : ℕ)
    (h1 : (pyInt (music_delay * sr)).toNat
        + (pyInt ((1/2 : ℚ) * sr)).toNat ≤ n)
    (h2 : n + (pyInt ((1/2 : ℚ) * sr)).toNat < tts_audio.length) :
    (mix_pre tts_audio music_audio tts_volume music_volume music_delay
        sr).getD n 0
      = tts_audio.getD n 0 * tts_volume +
        (apply_delay_and_fit music_audio (pyInt (music_delay * sr)).toNat
            tts_audio.length).getD n 0 * music_volume := by
  simp only [mix_pre]
  set ds := (pyInt (music_delay * sr)).toNat with hds
  set fitted := apply_delay_and_fit music_audio ds tts_audio.length
    with hfit
  have hlenf : fitted.length = tts_audio.length :=
    length_apply_delay_and_fit _ _ _
  have hn : n < tts_audio.length := by omega
  have hcf : (apply_crossfade fitted ds sr).getD n 0 = fitted.getD n 0 :=
    apply_crossfade_getD fitted ds sr n (by omega) (by omega)
  have hlencf : (apply_crossfade fitted ds sr).length = tts_audio.length := by
    rw [length_apply_crossfade, hlenf]
  have hb1 : n < (tts_audio.map (fun x => x * tts_volume)).length := by
    rw [List.length_map]; exact hn
  have hb2 : n < ((apply_crossfade fitted ds sr).map
      (fun x => x * music_volume)).length := by
    rw [List.length_map, hlencf]; exact hn
  have hbz : n < (List.zipWith (· + ·)
      (tts_audio.map (fun x => x * tts_volume))
      ((apply_crossfade fitted ds sr).map
        (fun x => x * music_volume))).length := by
    rw [List.length_zipWith]
    omega
  rw [List.getD_eq_getElem _ _ hbz, List.getElem_zipWith,
    List.getElem_map, List.getElem_map]
  rw [List.getD_eq_getElem _ _ hn,
    ← List.getD_eq_getElem (apply_crossfade fitted ds sr) 0 (by omega), hcf]

/-! ## Claims C4 -/

/-- C4 (amended): in the simple two-track mix no ducking is applied — at
every sample outside the music's 0.5 s fade-in and fade-out regions, the
music contribution in the pre-normalization mix equals
`music_fitted[n] × music_volume` regardless of the speech amplitude at
`n`; the 0.4 ducking factor belongs to the merger's multi-segment mix
(`AudioMerger._apply_ducking`), not to this mode. -/
theorem C4_simple_mix_no_ducking (tts_audio music_audio : List ℚ)
    (tts_volume music_volume music_delay : ℚ) (sr n : ℕ)
    (h1 : (pyInt (music_delay * sr)).toNat
        + (pyInt ((1/2 : ℚ) * sr)).toNat ≤ n)
    (h2 : n + (pyInt ((1/2 : ℚ) * sr)).toNat < tts_audio.length) :
    (mix_pre tts_audio music_audio tts_volume music_volume music_delay
        sr).getD n 0
      = tts_audio.getD n 0 * tts_volume +
        (apply_delay_and_fit music_audio (pyInt (music_delay * sr)).toNat
            tts_audio.length).getD n 0 * music_volume :=
  mix_pre_getD_outside_fades tts_audio music_audio tts_volume music_volume
    music_delay sr n h1 h2

theorem pyInt_half_four : (pyInt ((1/2 : ℚ) * ((4:ℕ) : ℚ))).toNat = 2 := by
  have h : pyInt ((1/2 : ℚ) * ((4:ℕ) : ℚ)) = 2 := by norm_num [pyInt]
  rw [h]
  rfl

theorem pyInt_zero_four : (pyInt ((0 : ℚ) * ((4:ℕ) : ℚ))).toNat = 0 := by
  norm_num [pyInt]

/-- C4 witness: the no-ducking law at sample 3 of an 8-sample mix at
`sr = 4` with no music delay. -/
theorem C4_simple_mix_no_ducking_witness :
    (mix_pre (List.replicate 8 ((1:ℚ)/2)) (List.replicate 8 ((1:ℚ)/2)) 1
        (3/10) 0 4).getD 3 0
      = (List.replicate 8 ((1:ℚ)/2)).getD 3 0 * 1 +
        (apply_delay_and_fit (List.replicate 8 ((1:ℚ)/2))
            (pyInt ((0 : ℚ) * ((4:ℕ) : ℚ))).toNat
            (List.replicate 8 ((1:ℚ)/2)).length).getD 3 0 * (3/10) :=
  C4_simple_mix_no_ducking (List.replicate 8 ((1:ℚ)/2))
    (List.replicate 8 ((1:ℚ)/2)) 1 (3/10) 0 4 3
    (by rw [pyInt_zero_four, pyInt_half_four]; norm_num)
    (by rw [pyInt_half_four]; norm_num)

/-- C4 (counterexample): at sample 3 of the concrete simple mix — speech
constant `0.5` (well above the −40 dBFS threshold `0.01`), music constant
`0.5`, `music_volume = 0.3`, no delay, `sr = 4` — the music contribution
in the pre-normalization mix is `0.5 × 0.3 = 0.15`, not the claimed
`0.4 × 0.5 × 0.3 = 0.06`: `_mix_sync` applies no ducking at all, far
beyond any box-filter smoothing tolerance. -/
theorem C4_ducking_law_counterexample :
    |(List.replicate 8 ((1:ℚ)/2)).getD 3 0| > 1/100 ∧
    (mix_pre (List.replicate 8 ((1:ℚ)/2)) (List.replicate 8 ((1:ℚ)/2)) 1
        (3/10) 0 4).getD 3 0
      - (List.replicate 8 ((1:ℚ)/2)).getD 3 0 * 1 = 3/20 ∧
    (3/20 : ℚ) ≠ 2/5 * (List.replicate 8 ((1:ℚ)/2)).getD 3 0 * (3/10) := by
  have hget : (List.replicate 8 ((1:ℚ)/2)).getD 3 0 = 1/2 := by
    simp [List.getD_eq_getElem?_getD, List.getElem?_replicate]
  have hfit : (apply_delay_and_fit (List.replicate 8 ((1:ℚ)/2))
      (pyInt ((0 : ℚ) * ((4:ℕ) : ℚ))).toNat
      (List.replicate 8 ((1:ℚ)/2)).length).getD 3 0 = 1/2 := by
    rw [pyInt_zero_four]
    simp only [apply_delay_and_fit, List.replicate_zero, List.nil_append,
      List.length_replicate, le_refl, if_true, List.take_replicate]
    simp [List.getD_eq_getElem?_getD, List.getElem?_replicate]
  have hmix := mix_pre_getD_outside_fades (List.replicate 8 ((1:ℚ)/2))
    (List.replicate 8 ((1:ℚ)/2)) 1 (3/10) 0 4 3
    (by rw [pyInt_zero_four, pyInt_half_four]; norm_num)
    (by rw [pyInt_half_four]; norm_num)
  refine ⟨by rw [hget, abs_of_pos (by norm_num : (0:ℚ) < 1/2)]; norm_num,
    ?_, by rw [hget]; norm_num⟩
  rw [hmix, hget, hfit]
  norm_num

/-! ## Multi-segment merge (`app/pipeline/merger.py`)

The on-disk audio files are modelled as a partial map from path to loaded
mono buffer; a `none` entry is a path that does not exist.  numpy raises
`ValueError` when an arithmetic operand's shape does not match (and
neither shape is broadcastable); the fallible steps of the merge are
therefore modelled in `Except String`, returning an error exactly where
the source would raise. -/

/-- A speech-segment record handed to the merger: `aligned_path`,
`target_start`, `target_end` (only the first two are read by the merge). -/
structure MergeSeg : Type where
  aligned_path : String
  target_start : ℚ
  target_end : ℚ

/-- `AudioMerger._load_and_fit`: a missing file yields a silent buffer of
the target length; otherwise the audio is trimmed or zero-padded. -/
def load_and_fit (disk : String → Option (List ℚ)) (audio_path : String)
    (target_samples : ℕ) : List ℚ :=
  match disk audio_path with
  | none => List.replicate target_samples 0
  | some audio =>
    if target_samples ≤ audio.length then audio.take target_samples
    else audio ++ List.replicate (target_samples - audio.length) 0

/-- `AudioMerger._apply_boundary_fades`: symmetric linear fades, capped at
half the clip length. -/
def apply_boundary_fades (audio : List ℚ) (fade_samples : ℕ) : List ℚ :=
  let fs := min fade_samples (audio.length / 2)
  if fs = 0 then audio
  else
    mulSlice (mulSlice audio 0 (linspace 0 1 fs)) (audio.length - fs)
      (linspace 1 0 fs)

/-- numpy `canvas[start : start + len(seg)] += seg` when the slice fits
the canvas (additive stamp;  `processSegment` checks the fit and errors
like numpy otherwise). -/
def stampSegment (canvas : List ℚ) (start_sample : ℕ) (seg_audio : List ℚ) :
    List ℚ :=
  (List.range canvas.length).map (fun i : ℕ =>
    canvas.getD i 0 +
      (if start_sample ≤ i ∧ i - start_sample < seg_audio.length then
        seg_audio.getD (i - start_sample) 0
      else 0))

/-- One iteration of the merge's segment loop: load the aligned clip (a
missing file is skipped), clamp to the canvas bounds, fade the boundaries,
and stamp additively onto the canvas.  The clamp only truncates against
`total_samples`: when the clamped start still lies beyond the canvas and
the clip is non-empty, `speech_canvas[start:start+len] += seg` adds a
non-empty array into an empty slice and numpy raises — modelled by the
error branch. -/
def processSegment (disk : String → Option (List ℚ)) (total_samples sr : ℕ)
    (fade_samples : ℕ) (canvas : List ℚ) (seg : MergeSeg) :
    Except String (List ℚ) :=
  match disk seg.aligned_path with
  | none => .ok canvas
  | some raw =>
    let start0 : ℤ := pyInt (seg.target_start * sr)
    let audio1 := if start0 < 0 then raw.drop (-start0).toNat else raw
    let start1 : ℤ := if start0 < 0 then 0 else start0
    let end_sample : ℤ := start1 + audio1.length
    let audio2 := if (total_samples : ℤ) < end_sample then
        pyTake audio1 ((total_samples : ℤ) - start1)
      else audio1
    if audio2.length = 0 then .ok canvas
    else if start1.toNat + audio2.length ≤ canvas.length then
      .ok (stampSegment canvas start1.toNat
        (apply_boundary_fades audio2 fade_samples))
    else .error "operands could not be broadcast"

/-- Steps 1 and 3 of `_merge_speech_and_music_sync`: the zero canvas with
every speech segment stamped on (the first out-of-canvas stamp aborts
with the numpy error). -/
def build_canvas (disk : String → Option (List ℚ)) (segs : List MergeSeg)
    (total_samples sr : ℕ) : Except String (List ℚ) :=
  let fade_samples := max 1 (pyInt ((3/200 : ℚ) * sr)).toNat
  segs.foldlM (processSegment disk total_samples sr fade_samples)
    (List.replicate total_samples 0)

/-- `np.convolve(a, v, mode="same")`: the central `max(len(a), len(v))`
entries of the full convolution. -/
def convolve_same (a v : List ℚ) : List ℚ :=
  let n := a.length
  let m := v.length
  let full := (List.range (n + m - 1)).map (fun j : ℕ =>
    ((List.range (j + 1)).map (fun i : ℕ =>
      a.getD i 0 * v.getD (j - i) 0)).sum)
  (List.range (max n m)).map (fun j : ℕ => full.getD (j + (min n m - 1) / 2) 0)

/-- `AudioMerger._apply_ducking`: a binary speech-activity mask at the
−40 dBFS threshold (`10 ** (−40/20) = 0.01`), box-filter smoothed over a
20 ms window and rethresholded at 0.3; music under the mask is scaled by
the duck factor 0.4.  When the box filter widens the mask beyond the
music (the 20 ms window exceeds the canvas), `music * gain` multiplies
mismatched shapes and numpy raises `ValueError` — the error branch (a
length-1 music buffer would instead broadcast to the window length,
equally not the canvas-length output; the merge theorems' window
hypothesis excludes both corners). -/
def apply_ducking (speech music : List ℚ) (sr : ℕ) :
    Except String (List ℚ) :=
  let threshold : ℚ := 1/100
  let mask := speech.map (fun x => decide (threshold < |x|))
  let window_size := max 1 (pyInt ((1/50 : ℚ) * sr)).toNat
  let active :=
    if 1 < window_size then
      (convolve_same (mask.map (fun b => if b then (1:ℚ) else 0))
          (List.replicate window_size (1 / (window_size : ℚ)))).map
        (fun x => decide ((3/10 : ℚ) < x))
    else mask
  let gain := active.map (fun b => if b then (2/5 : ℚ) else 1)
  if music.length = gain.length then
    .ok (List.zipWith (· * ·) music gain)
  else .error "operands could not be broadcast"

/-- `AudioMerger._merge_speech_and_music_sync`: stamp the segments, load
and fit the music, duck it under the speech canvas, sum and normalize; an
exception in any step propagates (and fails the workflow). -/
def merge_speech_and_music_sync (disk : String → Option (List ℚ))
    (segs : List MergeSeg) (music_path : String) (total_samples sr : ℕ)
    (targetLinear : ℚ) : Except String (List ℚ) :=
  match build_canvas disk segs total_samples sr with
  | .error e => .error e
  | .ok speech_canvas =>
    let music := load_and_fit disk music_path total_samples
    match apply_ducking speech_canvas music sr with
    | .error e => .error e
    | .ok ducked_music =>
      .ok (normalize targetLinear
        (List.zipWith (· + ·) speech_canvas ducked_music))

theorem length_stampSegment (canvas : List ℚ) (s : ℕ) (a : List ℚ) :
    (stampSegment canvas s a).length = canvas.length := by
  simp [stampSegment]

theorem length_apply_boundary_fades (audio : List ℚ) (f : ℕ) :
    (apply_boundary_fades audio f).length = audio.length := by
  simp only [apply_boundary_fades]
  split
  · rfl
  · rw [length_mulSlice, length_mulSlice]

theorem processSegment_ok (disk : String → Option (List ℚ))
    (t sr f : ℕ) (canvas : List ℚ) (seg : MergeSeg)
    (hc : canvas.length = t)
    (hs : pyInt (seg.target_start * sr) ≤ (t : ℤ)) :
    ∃ c', processSegment disk t sr f canvas seg = .ok c' ∧ c'.length = t := by
  simp only [processSegment]
  split
  · exact ⟨canvas, rfl, hc⟩
  · rename_i raw hraw
    by_cases h0 : pyInt (seg.target_start * (sr : ℚ)) < 0
    · simp only [if_pos h0]
      split
      · split
        · exact ⟨canvas, rfl, hc⟩
        · rw [if_pos]
          · exact ⟨_, rfl, by rw [length_stampSegment]; exact hc⟩
          · have hle := length_pyTake_nonneg_le
              (raw.drop (-(pyInt (seg.target_start * (sr : ℚ)))).toNat)
              ((t : ℤ) - 0) (by omega)
            omega
      · rename_i hclip
        split
        · exact ⟨canvas, rfl, hc⟩
        · rw [if_pos]
          · exact ⟨_, rfl, by rw [length_stampSegment]; exact hc⟩
          · omega
    · simp only [if_neg h0]
      split
      · rename_i hclip
        split
        · exact ⟨canvas, rfl, hc⟩
        · rw [if_pos]
          · exact ⟨_, rfl, by rw [length_stampSegment]; exact hc⟩
          · have hle := length_pyTake_nonneg_le raw
              ((t : ℤ) - pyInt (seg.target_start * (sr : ℚ))) (by omega)
            omega
      · rename_i hclip
        split
        · exact ⟨canvas, rfl, hc⟩
        · rw [if_pos]
          · exact ⟨_, rfl, by rw [length_stampSegment]; exact hc⟩
          · omega

theorem foldlM_processSegment_ok (disk : String → Option (List ℚ))
    (t sr f : ℕ) :
    ∀ (segs : List MergeSeg) (canvas : List ℚ), canvas.length = t →
      (∀ s ∈ segs, pyInt (s.target_start * sr) ≤ (t : ℤ)) →
      ∃ c', List.foldlM (processSegment disk t sr f) canvas segs = .ok c' ∧
        c'.length = t := by
  intro segs
  induction segs with
  | nil => exact fun c hc _ => ⟨c, rfl, hc⟩
  | cons s rest ih =>
    intro c hc hall
    obtain ⟨c1, hps, hlen1⟩ := processSegment_ok disk t sr f c s hc
      (hall s (List.mem_cons_self s rest))
    obtain ⟨c2, hrest, hlen2⟩ := ih c1 hlen1
      (fun x hx => hall x (List.mem_cons_of_mem s hx))
    refine ⟨c2, ?_, hlen2⟩
    rw [List.foldlM_cons, hps]
    exact hrest

theorem build_canvas_ok (disk : String → Option (List ℚ))
    (segs : List MergeSeg) (t sr : ℕ)
    (hseg : ∀ s ∈ segs, pyInt (s.target_start * sr) ≤ (t : ℤ)) :
    ∃ c, build_canvas disk segs t sr = .ok c ∧ c.length = t := by
  simp only [build_canvas]
  exact foldlM_processSegment_ok disk t sr _ segs
    (List.replicate t 0) (List.length_replicate t 0) hseg

theorem length_convolve_same (a v : List ℚ) :
    (convolve_same a v).length = max a.length v.length := by
  simp [convolve_same]

theorem zipWith_mul_replicate_zero (g : List ℚ) :
    ∀ n : ℕ, List.zipWith (· * ·) (List.replicate n (0:ℚ)) g
      = List.replicate (min n g.length) 0 := by
  induction g with
  | nil => intro n; simp
  | cons x gs ih =>
    intro n
    cases n with
    | zero => simp
    | succ m =>
      simp only [List.replicate_succ, List.zipWith_cons_cons, zero_mul,
        List.length_cons, ih, Nat.succ_min_succ]

theorem zipWith_add_replicate_zero (xs : List ℚ) (n : ℕ)
    (h : xs.length = n) :
    List.zipWith (· + ·) xs (List.replicate n (0:ℚ)) = xs := by
  subst h
  induction xs with
  | nil => rfl
  | cons x rest ih =>
    simp only [List.length_cons, List.replicate_succ,
      List.zipWith_cons_cons, add_zero, ih]

theorem apply_ducking_replicate_zero (speech : List ℚ) (sr n : ℕ)
    (h : speech.length = n)
    (hwin : max 1 (pyInt ((1/50 : ℚ) * sr)).toNat ≤ n) :
    apply_ducking speech (List.replicate n 0) sr
      = .ok (List.replicate n 0) := by
  simp only [apply_ducking]
  have hlen : (List.map (fun b => if b then (2/5 : ℚ) else 1)
      (if 1 < max 1 (pyInt ((1/50 : ℚ) * sr)).toNat then
        (convolve_same
            ((speech.map (fun x => decide ((1:ℚ)/100 < |x|))).map
              (fun b => if b then (1:ℚ) else 0))
            (List.replicate (max 1 (pyInt ((1/50 : ℚ) * sr)).toNat)
              (1 / ((max 1 (pyInt ((1/50 : ℚ) * sr)).toNat : ℕ) : ℚ)))).map
          (fun x => decide ((3/10 : ℚ) < x))
      else speech.map (fun x => decide ((1:ℚ)/100 < |x|)))).length = n := by
    split
    · simp only [List.length_map, length_convolve_same,
        List.length_replicate, h]
      omega
    · simp only [List.length_map, h]
  rw [if_pos]
  · rw [zipWith_mul_replicate_zero, hlen, min_self]
  · rw [List.length_replicate, hlen]

/-! ## Claims C10 -/

/-- C10 (counterexample): the claim "the merge does not fail" is false —
with no segments, a missing music path, a 240-sample canvas and
`sr = 24000` (10 ms of audio, shorter than the 20 ms smoothing window),
`_apply_ducking`'s box filter yields a 480-sample gain envelope and
`music * gain` multiplies shapes (240,) × (480,): numpy raises
`ValueError` and the merge fails. -/
theorem C10_merge_failure_counterexample :
    merge_speech_and_music_sync (fun _ => none) [] "music/no_vocals.wav"
        240 24000 (1/2)
      = Except.error "operands could not be broadcast" := by
  have hw : (pyInt ((1/50 : ℚ) * ((24000:ℕ) : ℚ))).toNat = 480 := by
    have h : pyInt ((1/50 : ℚ) * ((24000:ℕ) : ℚ)) = 480 := by
      norm_num [pyInt]
    rw [h]
    rfl
  have hb : build_canvas (fun _ => none) [] 240 24000
      = .ok (List.replicate 240 0) := rfl
  have hm : load_and_fit (fun _ => none) "music/no_vocals.wav" 240
      = List.replicate 240 0 := rfl
  have hd : apply_ducking (List.replicate 240 (0:ℚ))
      (List.replicate 240 (0:ℚ)) 24000
      = Except.error "operands could not be broadcast" := by
    simp only [apply_ducking, hw]
    rw [if_neg]
    have h1 : (1:ℕ) < max 1 480 := by norm_num
    rw [if_pos h1]
    simp only [List.length_map, List.length_replicate,
      length_convolve_same]
    omega
  simp only [merge_speech_and_music_sync, hb, hm, hd]

/-- C10 (amended): if the background-music path does not exist, the 20 ms
box-filter window `max(1, int(0.02·sr))` does not exceed the canvas, and
every segment's clamped start sample lies within the canvas, then the
merge does not fail: `_load_and_fit` substitutes an all-zero track of
full canvas length, the ducking of a silent track is silent, and the
output is the normalized speech canvas alone, of full canvas length. -/
theorem C10_missing_music_silent (disk : String → Option (List ℚ))
    (segs : List MergeSeg) (music_path : String) (total_samples sr : ℕ)
    (targetLinear : ℚ) (hmusic : disk music_path = none)
    (hwin : max 1 (pyInt ((1/50 : ℚ) * sr)).toNat ≤ total_samples)
    (hseg : ∀ s ∈ segs, pyInt (s.target_start * sr) ≤ (total_samples : ℤ)) :
    (build_canvas disk segs total_samples sr).map List.length
        = Except.ok total_samples ∧
    merge_speech_and_music_sync disk segs music_path total_samples sr
        targetLinear
      = (build_canvas disk segs total_samples sr).map
          (normalize targetLinear) ∧
    (merge_speech_and_music_sync disk segs music_path total_samples sr
        targetLinear).map List.length
      = Except.ok total_samples := by
  obtain ⟨canvas, hbc, hlen⟩ := build_canvas_ok disk segs total_samples sr
    hseg
  have hm : load_and_fit disk music_path total_samples
      = List.replicate total_samples 0 := by
    simp [load_and_fit, hmusic]
  have hmerge : merge_speech_and_music_sync disk segs music_path
      total_samples sr targetLinear = .ok (normalize targetLinear canvas) := by
    simp only [merge_speech_and_music_sync, hbc, hm,
      apply_ducking_replicate_zero canvas sr total_samples hlen hwin,
      zipWith_add_replicate_zero canvas total_samples hlen]
  refine ⟨?_, ?_, ?_⟩
  · rw [hbc]
    simp [Except.map, hlen]
  · rw [hmerge, hbc]
    simp [Except.map]
  · rw [hmerge]
    simp [Except.map, length_normalize, hlen]

/-- C10 witness: an empty disk, no segments, a 3-sample canvas at
`sr = 4` (window `max(1, int(0.08)) = 1`). -/
theorem C10_missing_music_silent_witness :
    (build_canvas (fun _ => none) [] 3 4).map List.length
        = Except.ok 3 ∧
    merge_speech_and_music_sync (fun _ => none) [] "music/no_vocals.wav"
        3 4 (1/2)
      = (build_canvas (fun _ => none) [] 3 4).map (normalize (1/2)) ∧
    (merge_speech_and_music_sync (fun _ => none) [] "music/no_vocals.wav"
        3 4 (1/2)).map List.length
      = Except.ok 3 :=
  C10_missing_music_silent (fun _ => none) [] "music/no_vocals.wav" 3 4
    (1/2) rfl
    (by
      have h : pyInt ((1/50 : ℚ) * ((4:ℕ) : ℚ)) = 0 := by norm_num [pyInt]
      rw [h]
      decide)
    (by simp)

end VoiceClone
